import Mathlib

/-!
A shallow embedding of the Email API service (`src/app.js`) and proofs about
its request-validation, templating and dispatch pipeline.

Modelling conventions:
* JavaScript strings are Lean `String`s; string algorithms are carried out on
  `List Char` (the `data` of a `String`).
* A request-body field that may be absent is an `Option`; JavaScript falsiness
  of a string field (`undefined` or `""`) is the `truthy` test below.
* Property lookup on the object literals (`config[service]`,
  `templates[template]`, `variables[key]`) is modelled as own-property lookup
  in a finite table together with the `Object.prototype` chain: reading an
  inherited property name (`protoProps`) yields a truthy non-table value,
  which `createTransporter` and `templatesGet` represent explicitly.
* The mail transport is abstracted by a `SendOutcome` oracle: the outcome of
  each successive `sendMail` call.  Each handler also reports a `HandlerTrace`
  saying whether a transporter was constructed and how many sends were attempted.
* `String.prototype.replace` with a global regex built from the token
  `{{key}}` is modelled as leftmost non-overlapping replacement of the
  literal token (`replaceAll`), with the full ECMA-262 replacement-string
  semantics of a group-free pattern (`$$`, `$&`, and the backquote and
  apostrophe forms; `expandDollar`).  Matching the token literally is exact
  for keys without regex metacharacters, the region the renderer theorems
  restrict to via `plainKey`; the regex class `\s` is modelled exactly by
  `jsWhitespace`.
-/

namespace EmailApi

/-- A JavaScript value as it may appear in the `variables` mapping of a
templated send.  Strings, numbers, booleans and null suffice here. -/
inductive JsVal where
  | str (s : String)
  | num (n : Int)
  | boolean (b : Bool)
  | null
deriving DecidableEq

/-- JavaScript truthiness of a `JsVal` (`""`, `0`, `false`, `null` are falsy). -/
def JsVal.truthyVal : JsVal → Bool
  | .str s => !(s == "")
  | .num n => !(n == 0)
  | .boolean b => b
  | .null => false

/-- JavaScript string coercion of a `JsVal` (as used by `String.replace`). -/
def JsVal.toText : JsVal → String
  | .str s => s
  | .num n => toString n
  | .boolean b => if b then "true" else "false"
  | .null => "null"

/-- The replacement text the renderer uses for a variable value:
`variables[key] || ''` coerces every falsy value to the empty string, and a
truthy value is coerced to a string by `String.replace`. -/
def coerceVal (v : JsVal) : List Char :=
  if v.truthyVal then v.toText.toList else []

/-- JavaScript truthiness of an optional string request field: absent
(`undefined`) and the empty string are falsy, every other string is truthy. -/
def truthy : Option String → Bool
  | none => false
  | some s => !(s == "")

/-- The code points matched by the JavaScript regex class `\s`
(ECMA-262 WhiteSpace + LineTerminator): tab, line feed, vertical tab, form
feed, carriage return, space, no-break space, ogham space mark, the en-quad
through hair-space range, line separator, paragraph separator, narrow
no-break space, medium mathematical space, ideographic space, and the BOM. -/
def jsWhitespaceCodes : List UInt32 :=
  [0x09, 0x0a, 0x0b, 0x0c, 0x0d, 0x20, 0xa0, 0x1680,
   0x2000, 0x2001, 0x2002, 0x2003, 0x2004, 0x2005, 0x2006, 0x2007,
   0x2008, 0x2009, 0x200a, 0x2028, 0x2029, 0x202f, 0x205f, 0x3000, 0xfeff]

/-- Does the JavaScript regex class `\s` match the character? -/
def jsWhitespace (c : Char) : Bool := jsWhitespaceCodes.contains c.val

/-- A character admitted by the character class `[^\s@]` of the validation
regex, with `\s` interpreted exactly as JavaScript does. -/
def emailChar (c : Char) : Bool := !jsWhitespace c && c != '@'

/-- Does the list contain a `'.'` that is not its last element?  Used to decide
the `[^\s@]+\.[^\s@]+` part of the validation regex. -/
def hasDotNotLast : List Char → Bool
  | [] => false
  | c :: rest => (c == '.' && !rest.isEmpty) || hasDotNotLast rest

/-- Does the list contain a `'.'` at an interior position (neither first nor
last)?  This is exactly when it splits as `b ++ '.' :: c` with `b`, `c`
nonempty. -/
def interiorDot : List Char → Bool
  | [] => false
  | _ :: t => hasDotNotLast t

/-- `validateEmail` from `src/app.js` (line 24): decides the anchored regex
`^[^\s@]+@[^\s@]+\.[^\s@]+$` on the character list of the address.  The
language of that regex is: a nonempty block of `[^\s@]` characters, one `'@'`,
then a block of `[^\s@]` characters containing an interior dot.  (When the
`dropWhile` below returns a nonempty list its head is necessarily the first
`'@'` of the string, the character on which the scan stopped.) -/
def validateEmail (cs : List Char) : Bool :=
  match cs.dropWhile (fun c => c != '@') with
  | [] => false
  | _ :: domain =>
    let localPart := cs.takeWhile (fun c => c != '@')
    !localPart.isEmpty && localPart.all emailChar && domain.all emailChar
      && interiorDot domain

/-- `validateEmail` applied to a `String`. -/
def validateEmailStr (s : String) : Bool := validateEmail s.toList

/-- The three provider profiles of the `config` table in `createTransporter`
(`src/app.js` line 30).  The environment-sourced connection parameters of each
profile are abstracted; what is modelled is which profile is selected. -/
inductive Provider where
  | gmail
  | outlook
  | smtp
deriving DecidableEq

/-- Own-property lookup in the `config` object literal of `createTransporter`;
the prototype chain of the literal is applied in `createTransporter` below. -/
def providerTable (s : String) : Option Provider :=
  if s = "gmail" then some Provider.gmail
  else if s = "outlook" then some Provider.outlook
  else if s = "smtp" then some Provider.smtp
  else none

/-- The property names a plain object literal inherits from
`Object.prototype`.  Reading any of them yields a truthy value (a built-in
function, or `Object.prototype` itself for `__proto__`), so
`obj[name] || fallback` does not take the fallback for these names. -/
def protoProps : List String :=
  ["constructor", "hasOwnProperty", "isPrototypeOf", "propertyIsEnumerable",
   "toLocaleString", "toString", "valueOf", "__defineGetter__",
   "__defineSetter__", "__lookupGetter__", "__lookupSetter__", "__proto__"]

/-- What `nodemailer.createTransport` receives: one of the three provider
profiles, or a truthy value inherited from `Object.prototype` when the
selector names an inherited property. -/
inductive TransportSelection where
  | profile (p : Provider)
  | inherited (prop : String)
deriving DecidableEq

/-- `createTransporter` from `src/app.js` (line 30): the default parameter
`service = 'gmail'` applies when the selector is absent, and
`config[service] || config.gmail` falls back to the gmail profile only when
`config[service]` is undefined — for an own profile it is that profile, and
for a property inherited from `Object.prototype` it is the truthy inherited
value, which is then passed to the transport library. -/
def createTransporter (service : Option String) : TransportSelection :=
  match providerTable (service.getD "gmail") with
  | some p => TransportSelection.profile p
  | none =>
    if service.getD "gmail" ∈ protoProps then
      TransportSelection.inherited (service.getD "gmail")
    else TransportSelection.profile Provider.gmail

/-- One step of fuelled leftmost non-overlapping literal replacement: the
behaviour of `s.replace(regex, val)` for a global regex matching the literal
`pat` when `val` contains no `$`.  The fuel is only a structural-termination
device; callers supply enough fuel for it never to run out. -/
def replaceAllP (pat val : List Char) : Nat → List Char → List Char
  | 0, s => s
  | _ + 1, [] => []
  | fuel + 1, c :: rest =>
    cond (pat.isPrefixOf (c :: rest))
      (val ++ replaceAllP pat val fuel (rest.drop (pat.length - 1)))
      (c :: replaceAllP pat val fuel rest)

/-- Literal leftmost non-overlapping replacement of `pat` by `val`:
`s.replace(new RegExp(pat-as-literal, 'g'), val)` restricted to `$`-free
`val`, in which case the replacement string is inserted verbatim.
`replaceAll` below is the full model and agrees with this one on `$`-free
values (`replaceAll_eq_plain`). -/
def replaceAllPlain (pat val s : List Char) : List Char := replaceAllP pat val s.length s

/-- `GetSubstitution` of ECMA-262 for a regex without capture groups:
expand the replacement string, interpreting `$$` as a literal dollar, `$&` as
the matched text, a dollar followed by a backquote as the portion of the
subject before the match, `$` followed by an apostrophe as the portion after
the match, and leaving every other `$`-sequence verbatim. -/
def expandDollar (matched before after : List Char) : List Char → List Char
  | [] => []
  | [c] => [c]
  | c :: d :: rest =>
    if c = '$' then
      if d = '$' then '$' :: expandDollar matched before after rest
      else if d = '&' then matched ++ expandDollar matched before after rest
      else if d = '\x60' then before ++ expandDollar matched before after rest
      else if d = '\x27' then after ++ expandDollar matched before after rest
      else '$' :: d :: expandDollar matched before after rest
    else c :: expandDollar matched before after (d :: rest)

/-- Fuelled scan of `s.replace(new RegExp(pat-as-literal, 'g'), val)` with
the full replacement-string semantics: `pre` is the portion of the original
subject already scanned, so that each match expands `val` against the
matched text, the original text before the match, and the original text
after it. -/
def replaceAllF (pat val : List Char) : Nat → List Char → List Char → List Char
  | _, _, [] => []
  | 0, _, s => s
  | fuel + 1, pre, c :: rest =>
    cond (pat.isPrefixOf (c :: rest))
      (expandDollar pat pre (rest.drop (pat.length - 1)) val
        ++ replaceAllF pat val fuel (pre ++ (c :: rest).take pat.length)
            (rest.drop (pat.length - 1)))
      (c :: replaceAllF pat val fuel (pre ++ [c]) rest)

/-- Replace every (leftmost, non-overlapping) occurrence of `pat` in `s` by
the expansion of `val` — the behaviour of
`s.replace(new RegExp(pat-as-literal, 'g'), val)` including `$`-escapes. -/
def replaceAll (pat val s : List Char) : List Char := replaceAllF pat val s.length [] s

/-- The placeholder token `{{key}}` built by the renderer
(`new RegExp`, `src/app.js` line 321). -/
def token (k : List Char) : List Char := '\x7b' :: '\x7b' :: (k ++ ['\x7d', '\x7d'])

/-- The variable-substitution loop of the templated-send handler
(`src/app.js` lines 320–324): fold over the entries of `variables` in order,
replacing every occurrence of `{{key}}` by the coerced value. -/
def renderChars (vars : List (String × JsVal)) (s : List Char) : List Char :=
  vars.foldl (fun acc kv => replaceAll (token kv.fst.toList) (coerceVal kv.snd) acc) s

/-- A `{subject, html}` template of the registry. -/
structure EmailTemplate where
  subject : String
  html : String
deriving DecidableEq

/-- Rendering a whole template: both the subject and the html body go through
the same substitution loop. -/
def renderTemplate (vars : List (String × JsVal)) (t : EmailTemplate) : EmailTemplate :=
  ⟨(renderChars vars t.subject.toList).asString,
   (renderChars vars t.html.toList).asString⟩

/-- The `welcome` template of the registry (`src/app.js` lines 256–263). -/
def welcomeTemplate : EmailTemplate :=
  ⟨"Welcome to \x7b\x7bappName\x7d\x7d!",
   "\n          <h1>Welcome \x7b\x7bname\x7d\x7d!</h1>\n          <p>Thank you for joining \x7b\x7bappName\x7d\x7d. We\x27re excited to have you on board!</p>\n          <p>Best regards,<br>The \x7b\x7bappName\x7d\x7d Team</p>\n        "⟩

/-- The `art_submission` template of the registry (`src/app.js` lines 264–287). -/
def art_submissionTemplate : EmailTemplate :=
  ⟨"New Order Received for Your Artwork on Art_Gallery!",
   "\n          <h2>Hello Seller</h2>\n\n          <p>Great news! You\x27ve received a new order for your artwork on <strong>Art_Gallery</strong>.</p>\n\n          <h3>ðŸŽ¨ Artwork Details:</h3>\n          <img src=\"\x7b\x7bimageUrl\x7d\x7d\" alt=\"Artwork image\" style=\"max-width: 100%; height: auto; border: 1px solid #ddd; padding: 4px;\" />\n\n          <ul>\n            <li><strong>Description:</strong> \x7b\x7bdescription\x7d\x7d</li>\n            <li><strong>Dimensions:</strong> \x7b\x7bdimensions\x7d\x7d</li>\n            <li><strong>Medium:</strong> \x7b\x7bmedium\x7d\x7d</li>\n          </ul>\n\n          <h3>ðŸ§¾ Buyer Details:</h3>\n          <ul>\n            <li><strong>Full Name:</strong> \x7b\x7bbuyerName\x7d\x7d</li>\n            <li><strong>Email:</strong> \x7b\x7bbuyerEmail\x7d\x7d</li>\n            <li><strong>Shipping Address:</strong> \x7b\x7baddress\x7d\x7d</li>\n          </ul>\n        "⟩

/-- The `reset_password` template of the registry (`src/app.js` lines 288–297). -/
def reset_passwordTemplate : EmailTemplate :=
  ⟨"Password Reset Request",
   "\n          <h1>Password Reset</h1>\n          <p>Hi \x7b\x7bname\x7d\x7d,</p>\n          <p>You requested a password reset. Click the link below to reset your password:</p>\n          <p><a href=\"\x7b\x7bresetLink\x7d\x7d\">Reset Password</a></p>\n          <p>If you didn\x27t request this, please ignore this email.</p>\n        "⟩

/-- The `notification` template of the registry (`src/app.js` lines 298–305). -/
def notificationTemplate : EmailTemplate :=
  ⟨"\x7b\x7bsubject\x7d\x7d",
   "\n          <h1>\x7b\x7btitle\x7d\x7d</h1>\n          <p>\x7b\x7bmessage\x7d\x7d</p>\n          <p>Best regards,<br>\x7b\x7bsenderName\x7d\x7d</p>\n        "⟩

/-- Own-property lookup in the `templates` object literal
(`templates[template]`, `src/app.js` line 308); the prototype chain of the
literal is applied in `templatesGet` below. -/
def templates (name : String) : Option EmailTemplate :=
  if name = "welcome" then some welcomeTemplate
  else if name = "art_submission" then some art_submissionTemplate
  else if name = "reset_password" then some reset_passwordTemplate
  else if name = "notification" then some notificationTemplate
  else none

/-- The value of `templates[template]` in the source: a registry entry for
the 4 own keys, a truthy inherited value for `Object.prototype` property
names, and `none` (undefined, falsy) otherwise. -/
inductive TemplateLookup where
  | registry (tpl : EmailTemplate)
  | inherited (prop : String)
deriving DecidableEq

/-- Property read `templates[template]` including the prototype chain. -/
def templatesGet (name : String) : Option TemplateLookup :=
  match templates name with
  | some t => some (TemplateLookup.registry t)
  | none =>
    if name ∈ protoProps then some (TemplateLookup.inherited name) else none

/-- `Object.keys(templates)` in insertion order — the `availableTemplates`
list returned on an unknown-template error (`src/app.js` line 312).
(`Object.keys` lists own enumerable properties only.) -/
def templateKeys : List String :=
  ["welcome", "art_submission", "reset_password", "notification"]

/-- The outcome of one `transporter.sendMail` call: resolve with a message id
or reject with an error message. -/
inductive SendOutcome where
  | ok (messageId : String)
  | err (message : String)
deriving DecidableEq

/-- Observable side effects of one handler invocation: whether
`createTransporter` ran and how many `sendMail` calls were made. -/
structure HandlerTrace where
  transporterCreated : Bool
  sendAttempts : Nat
deriving DecidableEq

/-- The body of a `POST /send-email` request.  (`to` and `from` are Lean
keywords, so those fields are called `toAddr` and `fromAddr`; `attachments`
plays no role in any claim.) -/
structure SingleRequest where
  toAddr : Option String
  subject : Option String
  text : Option String
  html : Option String
  fromAddr : Option String
  service : Option String
deriving DecidableEq

/-- The responses the `/send-email` handler can produce. -/
inductive SingleResponse where
  | errMissingFields
  | errInvalidRecipient
  | errInvalidSender
  | sent (messageId : String)
  | errSendFailed (details : String)
deriving DecidableEq

/-- The HTTP status the `/send-email` handler attaches to each response. -/
def SingleResponse.status : SingleResponse → Nat
  | .sent _ => 200
  | .errSendFailed _ => 500
  | _ => 400

/-- The `POST /send-email` handler (`src/app.js` lines 78–139). -/
def sendEmailHandler (req : SingleRequest) (outcome : SendOutcome) :
    SingleResponse × HandlerTrace :=
  if !truthy req.toAddr || !truthy req.subject || (!truthy req.text && !truthy req.html) then
    (SingleResponse.errMissingFields, ⟨false, 0⟩)
  else if !validateEmailStr (req.toAddr.getD "") then
    (SingleResponse.errInvalidRecipient, ⟨false, 0⟩)
  else if truthy req.fromAddr && !validateEmailStr (req.fromAddr.getD "") then
    (SingleResponse.errInvalidSender, ⟨false, 0⟩)
  else
    match outcome with
    | SendOutcome.ok mid => (SingleResponse.sent mid, ⟨true, 1⟩)
    | SendOutcome.err m => (SingleResponse.errSendFailed m, ⟨true, 1⟩)

/-- The body of a `POST /send-bulk-email` request.  `recipients = none` models
an absent or non-array field. -/
structure BulkRequest where
  recipients : Option (List String)
  subject : Option String
  text : Option String
  html : Option String
  fromAddr : Option String
  service : Option String
deriving DecidableEq

/-- A success entry of the bulk response's `results` list. -/
structure BulkResultEntry where
  email : String
  messageId : String
deriving DecidableEq

/-- A failure entry of the bulk response's `errors` list. -/
structure BulkErrorEntry where
  email : String
  error : String
deriving DecidableEq

/-- The responses the `/send-bulk-email` handler can produce. -/
inductive BulkResponse where
  | errRecipientsRequired
  | errMissingFields
  | errInvalidEmails (invalidEmails : List String)
  | errTooManyRecipients
  | completed (results : List BulkResultEntry) (errors : List BulkErrorEntry)
deriving DecidableEq

/-- The HTTP status the `/send-bulk-email` handler attaches to each response. -/
def BulkResponse.status : BulkResponse → Nat
  | .completed _ _ => 200
  | _ => 400

/-- The sequential per-recipient send loop (`src/app.js` lines 189–212):
the `i`-th iteration makes the `i`-th `sendMail` call; a success is appended
to `results`, a failure is caught and appended to `errors`, and the loop
continues either way. -/
def bulkLoop (sendFn : Nat → SendOutcome) :
    List String → Nat → List BulkResultEntry × List BulkErrorEntry
  | [], _ => ([], [])
  | r :: rs, i =>
    match sendFn i, bulkLoop sendFn rs (i+1) with
    | SendOutcome.ok mid, (res, errs) => (⟨r, mid⟩ :: res, errs)
    | SendOutcome.err m, (res, errs) => (res, ⟨r, m⟩ :: errs)

/-- The `POST /send-bulk-email` handler (`src/app.js` lines 142–228).
`sendFn i` is the outcome of the `i`-th provider call. -/
def sendBulkEmailHandler (req : BulkRequest) (sendFn : Nat → SendOutcome) :
    BulkResponse × HandlerTrace :=
  match req.recipients with
  | none => (BulkResponse.errRecipientsRequired, ⟨false, 0⟩)
  | some recips =>
    if recips.isEmpty then (BulkResponse.errRecipientsRequired, ⟨false, 0⟩)
    else if !truthy req.subject || (!truthy req.text && !truthy req.html) then
      (BulkResponse.errMissingFields, ⟨false, 0⟩)
    else
      let invalidEmails := recips.filter (fun e => !validateEmailStr e)
      if !invalidEmails.isEmpty then
        (BulkResponse.errInvalidEmails invalidEmails, ⟨false, 0⟩)
      else if recips.length > 50 then
        (BulkResponse.errTooManyRecipients, ⟨false, 0⟩)
      else
        match bulkLoop sendFn recips 0 with
        | (res, errs) => (BulkResponse.completed res errs, ⟨true, recips.length⟩)

/-- The body of a `POST /send-template-email` request; `vars` models the
`variables` field (`variable` is a Lean command), defaulting to the empty
mapping. -/
structure TemplateRequest where
  toAddr : Option String
  template : Option String
  vars : List (String × JsVal)
  service : Option String
  fromAddr : Option String
deriving DecidableEq

/-- The responses the `/send-template-email` handler can produce. -/
inductive TemplateResponse where
  | errMissingFields
  | errInvalidRecipient
  | errTemplateNotFound (availableTemplates : List String)
  | sent (messageId : String) (template : String)
  | errSendFailed (details : String)
deriving DecidableEq

/-- The HTTP status the `/send-template-email` handler attaches to each
response. -/
def TemplateResponse.status : TemplateResponse → Nat
  | .sent _ _ => 200
  | .errSendFailed _ => 500
  | _ => 400

/-- The `POST /send-template-email` handler (`src/app.js` lines 231–354).
`templates[template]` is read through the prototype chain: only an undefined
result (`none`) takes the 400 template-not-found branch.  When the lookup
hits an inherited `Object.prototype` property, `selectedTemplate` is truthy
but `selectedTemplate.subject` and `.html` are undefined: with a nonempty
`variables` mapping the first `subject.replace` throws a TypeError that the
outer catch turns into a 500, and with the default empty mapping the handler
proceeds to send a mail whose subject and html are undefined. -/
def sendTemplateEmailHandler (req : TemplateRequest) (outcome : SendOutcome) :
    TemplateResponse × HandlerTrace :=
  if !truthy req.toAddr || !truthy req.template then
    (TemplateResponse.errMissingFields, ⟨false, 0⟩)
  else if !validateEmailStr (req.toAddr.getD "") then
    (TemplateResponse.errInvalidRecipient, ⟨false, 0⟩)
  else
    match templatesGet (req.template.getD "") with
    | none => (TemplateResponse.errTemplateNotFound templateKeys, ⟨false, 0⟩)
    | some (TemplateLookup.registry tpl) =>
      let _rendered := renderTemplate req.vars tpl
      match outcome with
      | SendOutcome.ok mid => (TemplateResponse.sent mid (req.template.getD ""), ⟨true, 1⟩)
      | SendOutcome.err m => (TemplateResponse.errSendFailed m, ⟨true, 1⟩)
    | some (TemplateLookup.inherited _) =>
      match req.vars with
      | [] =>
        match outcome with
        | SendOutcome.ok mid => (TemplateResponse.sent mid (req.template.getD ""), ⟨true, 1⟩)
        | SendOutcome.err m => (TemplateResponse.errSendFailed m, ⟨true, 1⟩)
      | _ :: _ =>
        (TemplateResponse.errSendFailed
          "Cannot read properties of undefined (reading \x27replace\x27)", ⟨false, 0⟩)

/-! ### A segment model of templates

To reason about the substitution loop we view a template string as a list of
segments: literal text and `\x7b\x7bkey\x7d\x7d` placeholder holes.  A template is
well formed when its literal text contains no braces and its hole keys are
plain identifier keys; all four registry templates are of this shape. -/

/-- A template segment: literal text or a placeholder hole. -/
inductive Seg where
  | txt (s : List Char)
  | hole (k : String)
deriving DecidableEq

/-- The characters a segment contributes to the template string. -/
def Seg.chars : Seg → List Char
  | .txt s => s
  | .hole k => token k.toList

/-- The template string denoted by a list of segments. -/
def flattenSegs (segs : List Seg) : List Char := (segs.map Seg.chars).flatten

/-- First-binding lookup in the variable mapping (own-property access on the
`variables` object; `Object.keys` of an object never repeats a key). -/
def lookupVar (k : String) : List (String × JsVal) → Option JsVal
  | [] => none
  | kv :: rest => if k = kv.fst then some kv.snd else lookupVar k rest

/-- Simultaneous substitution on one segment: a bound hole becomes its coerced
value, an unbound hole stays as the literal `\x7b\x7bkey\x7d\x7d` text. -/
def substSeg (vars : List (String × JsVal)) : Seg → List Char
  | .txt s => s
  | .hole k =>
    match lookupVar k vars with
    | some v => coerceVal v
    | none => token k.toList

/-- The specification-level renderer: simultaneous substitution of all bound
holes, leaving unbound holes verbatim. -/
def renderSim (vars : List (String × JsVal)) (segs : List Seg) : List Char :=
  (segs.map (substSeg vars)).flatten

/-- Characters that make a variable key a plain identifier, on which the
`new RegExp` of the renderer matches the token literally. -/
def plainChar (c : Char) : Bool := c.isAlphanum || c == '_'

/-- A plain identifier key. -/
def plainKey (k : String) : Prop := ∀ c ∈ k.toList, plainChar c

/-- No character of the list is a brace. -/
def braceFree (s : List Char) : Prop := ∀ c ∈ s, c ≠ '\x7b' ∧ c ≠ '\x7d'

/-- A variable value whose replacement text contains no braces (so it cannot
create or destroy tokens) and no `$` (so `String.replace` inserts it
literally). -/
def cleanVal (v : JsVal) : Prop :=
  ∀ c ∈ coerceVal v, c ≠ '\x7b' ∧ c ≠ '\x7d' ∧ c ≠ '$'

/-- A well-formed segment: brace-free literal text, or a plain-identifier key. -/
def Seg.Good : Seg → Prop
  | .txt s => braceFree s
  | .hole k => plainKey k

/-- Substituting a single key: holes for `k` become literal text `val`,
everything else is unchanged. -/
def substOne (k : String) (val : List Char) (segs : List Seg) : List Seg :=
  segs.map (fun seg =>
    match seg with
    | Seg.hole kk => if kk = k then Seg.txt val else Seg.hole kk
    | sg => sg)

/-- Is `n` a contiguous substring of `h`?  Used to state the disjointness
side condition of the order-independence claim. -/
def isSubstringOf (n : List Char) : List Char → Bool
  | [] => n.isEmpty
  | c :: rest => n.isPrefixOf (c :: rest) || isSubstringOf n rest

instance (s : List Char) : Decidable (braceFree s) := by
  unfold braceFree
  exact List.decidableBAll _ s

instance (k : String) : Decidable (plainKey k) := by
  unfold plainKey
  exact List.decidableBAll _ _

instance (v : JsVal) : Decidable (cleanVal v) := by
  unfold cleanVal
  exact List.decidableBAll _ _

instance : DecidablePred Seg.Good := fun sg =>
  match sg with
  | Seg.txt s => inferInstanceAs (Decidable (braceFree s))
  | Seg.hole k => inferInstanceAs (Decidable (plainKey k))

/-- The segmentation of the `notification` template subject: one hole. -/
def notificationSubjectSegs : List Seg := [Seg.hole "subject"]

/-- The segmentation of the `notification` template body into literal text
and its three holes. -/
def notificationHtmlSegs : List Seg :=
  [Seg.txt "\n          <h1>".toList, Seg.hole "title",
   Seg.txt "</h1>\n          <p>".toList, Seg.hole "message",
   Seg.txt "</p>\n          <p>Best regards,<br>".toList, Seg.hole "senderName",
   Seg.txt "</p>\n        ".toList]

/-- A concrete variable mapping exercising a truthy string, a truthy string,
and a falsy number, with the template's `senderName` key left unbound. -/
def c2Vars : List (String × JsVal) :=
  [("subject", JsVal.str "Hi"), ("title", JsVal.str "T"), ("message", JsVal.num 0)]

/-! ### Lemmas about `replaceAllPlain` -/

theorem plainChar_braces (c : Char) (h : plainChar c = true) :
    c ≠ '\x7b' ∧ c ≠ '\x7d' := by
  constructor <;> (rintro rfl; simp [plainChar] at h)

theorem plainKey_braceFree (k : String) (h : plainKey k) : braceFree k.toList :=
  fun c hc => plainChar_braces c (h c hc)

theorem cleanVal_braceFree (v : JsVal) (h : cleanVal v) : braceFree (coerceVal v) :=
  fun c hc => ⟨(h c hc).1, (h c hc).2.1⟩

theorem cleanVal_dollarFree (v : JsVal) (h : cleanVal v) : '$' ∉ coerceVal v :=
  fun hm => (h _ hm).2.2 rfl

theorem expandDollar_dollarFree (m b a : List Char) :
    ∀ (val : List Char), '$' ∉ val → expandDollar m b a val = val
  | [], _ => rfl
  | [_], _ => rfl
  | c :: d :: rest, h => by
    have hc : c ≠ '$' := fun he => h (he ▸ List.mem_cons_self _ _)
    have hd : '$' ∉ d :: rest := fun hm => h (List.mem_cons_of_mem _ hm)
    rw [show expandDollar m b a (c :: d :: rest)
        = if c = '$' then
            (if d = '$' then '$' :: expandDollar m b a rest
             else if d = '&' then m ++ expandDollar m b a rest
             else if d = '\x60' then b ++ expandDollar m b a rest
             else if d = '\x27' then a ++ expandDollar m b a rest
             else '$' :: d :: expandDollar m b a rest)
          else c :: expandDollar m b a (d :: rest) from rfl,
      if_neg hc, expandDollar_dollarFree m b a (d :: rest) hd]

theorem replaceAllF_dollarFree (pat val : List Char) (hval : '$' ∉ val) :
    ∀ (fuel : Nat) (pre s : List Char),
      replaceAllF pat val fuel pre s = replaceAllP pat val fuel s := by
  intro fuel
  induction fuel with
  | zero => intro pre s; cases s <;> rfl
  | succ f ih =>
    intro pre s
    cases s with
    | nil => rfl
    | cons c rest =>
      show cond (pat.isPrefixOf (c :: rest))
          (expandDollar pat pre (rest.drop (pat.length - 1)) val
            ++ replaceAllF pat val f (pre ++ (c :: rest).take pat.length)
                (rest.drop (pat.length - 1)))
          (c :: replaceAllF pat val f (pre ++ [c]) rest)
        = cond (pat.isPrefixOf (c :: rest))
          (val ++ replaceAllP pat val f (rest.drop (pat.length - 1)))
          (c :: replaceAllP pat val f rest)
      cases hpre : pat.isPrefixOf (c :: rest)
      · rw [cond_false, cond_false, ih _ rest]
      · rw [cond_true, cond_true, expandDollar_dollarFree pat pre _ val hval, ih _ _]

theorem replaceAll_eq_plain (pat val s : List Char) (h : '$' ∉ val) :
    replaceAll pat val s = replaceAllPlain pat val s :=
  replaceAllF_dollarFree pat val h s.length [] s

theorem string_toList_inj {a b : String} (h : a.toList = b.toList) : a = b := by
  cases a
  cases b
  simp only [String.toList] at h
  rw [h]

theorem isPrefixOf_nil_left (t : List Char) : ([] : List Char).isPrefixOf t = true := by
  cases t <;> rfl

theorem isPrefixOf_cons_cons (a b : Char) (as bs : List Char) :
    (a :: as).isPrefixOf (b :: bs) = (a == b && as.isPrefixOf bs) := rfl

theorem isPrefixOf_self_append (l t : List Char) : l.isPrefixOf (l ++ t) = true := by
  induction l with
  | nil => exact isPrefixOf_nil_left t
  | cons c l ih => rw [List.cons_append, isPrefixOf_cons_cons, ih]; simp

theorem replaceAllP_nil (pat val : List Char) (fuel : Nat) :
    replaceAllP pat val fuel [] = [] := by
  cases fuel <;> rfl

theorem replaceAllP_congr (pat val : List Char) :
    ∀ (f₁ : Nat) (s : List Char) (f₂ : Nat), s.length ≤ f₁ → s.length ≤ f₂ →
      replaceAllP pat val f₁ s = replaceAllP pat val f₂ s := by
  intro f₁
  induction f₁ with
  | zero =>
    intro s f₂ h₁ _
    have hs : s = [] := List.eq_nil_of_length_eq_zero (Nat.le_zero.mp h₁)
    subst hs
    simp [replaceAllP_nil]
  | succ f ih =>
    intro s f₂ h₁ h₂
    match s, f₂ with
    | [], _ => simp [replaceAllP_nil]
    | c :: rest, 0 => simp at h₂
    | c :: rest, g + 1 =>
      have hr : rest.length ≤ f := by simp [List.length_cons] at h₁; omega
      have hg : rest.length ≤ g := by simp [List.length_cons] at h₂; omega
      have hd : (rest.drop (pat.length - 1)).length ≤ rest.length := by
        simp [List.length_drop]
      show cond (pat.isPrefixOf (c :: rest))
          (val ++ replaceAllP pat val f (rest.drop (pat.length - 1)))
          (c :: replaceAllP pat val f rest)
        = cond (pat.isPrefixOf (c :: rest))
          (val ++ replaceAllP pat val g (rest.drop (pat.length - 1)))
          (c :: replaceAllP pat val g rest)
      cases hpre : pat.isPrefixOf (c :: rest)
      · rw [cond_false, cond_false, ih rest g hr hg]
      · rw [cond_true, cond_true,
          ih (rest.drop (pat.length - 1)) g (le_trans hd hr) (le_trans hd hg)]

theorem replaceAllPlain_nil (pat val : List Char) : replaceAllPlain pat val [] = [] := rfl

theorem replaceAllPlain_cons_pos (p : Char) (ps val : List Char) (c : Char) (rest : List Char)
    (h : (p :: ps).isPrefixOf (c :: rest) = true) :
    replaceAllPlain (p :: ps) val (c :: rest)
      = val ++ replaceAllPlain (p :: ps) val (rest.drop ps.length) := by
  show cond ((p :: ps).isPrefixOf (c :: rest))
      (val ++ replaceAllP (p :: ps) val rest.length (rest.drop ps.length))
      (c :: replaceAllP (p :: ps) val rest.length rest)
    = val ++ replaceAllPlain (p :: ps) val (rest.drop ps.length)
  rw [h, cond_true]
  have := replaceAllP_congr (p :: ps) val rest.length (rest.drop ps.length)
    (rest.drop ps.length).length (by simp [List.length_drop]) (le_refl _)
  rw [this]
  rfl

theorem replaceAllPlain_cons_neg (pat val : List Char) (c : Char) (rest : List Char)
    (h : pat.isPrefixOf (c :: rest) = false) :
    replaceAllPlain pat val (c :: rest) = c :: replaceAllPlain pat val rest := by
  show cond (pat.isPrefixOf (c :: rest))
      (val ++ replaceAllP pat val rest.length (rest.drop (pat.length - 1)))
      (c :: replaceAllP pat val rest.length rest)
    = c :: replaceAllPlain pat val rest
  rw [h, cond_false]
  rfl

theorem replaceAllPlain_skip (p : Char) (ps val : List Char) (s t : List Char)
    (hs : ∀ c ∈ s, c ≠ p) :
    replaceAllPlain (p :: ps) val (s ++ t) = s ++ replaceAllPlain (p :: ps) val t := by
  induction s with
  | nil => rfl
  | cons c s ih =>
    have hc : c ≠ p := hs c (List.mem_cons_self c s)
    have hb : (p == c) = false := beq_eq_false_iff_ne.mpr fun hx => hc hx.symm
    have hpre : (p :: ps).isPrefixOf (c :: (s ++ t)) = false := by
      rw [isPrefixOf_cons_cons, hb, Bool.false_and]
    rw [List.cons_append, replaceAllPlain_cons_neg _ _ _ _ hpre,
      ih (fun x hx => hs x (List.mem_cons_of_mem _ hx)), List.cons_append]

theorem replaceAllPlain_head_match (p : Char) (ps val rest : List Char) :
    replaceAllPlain (p :: ps) val ((p :: ps) ++ rest) = val ++ replaceAllPlain (p :: ps) val rest := by
  have hpre : (p :: ps).isPrefixOf (p :: (ps ++ rest)) = true := by
    rw [← List.cons_append]
    exact isPrefixOf_self_append (p :: ps) rest
  rw [List.cons_append, replaceAllPlain_cons_pos p ps val p (ps ++ rest) hpre, List.drop_left]

theorem key_mismatch : ∀ (k k' rest : List Char),
    (∀ c ∈ k, c ≠ '\x7d') → (∀ c ∈ k', c ≠ '\x7d') → k ≠ k' →
    (k ++ ['\x7d', '\x7d']).isPrefixOf (k' ++ '\x7d' :: '\x7d' :: rest) = false := by
  intro k
  induction k with
  | nil =>
    intro k' rest _ hk' hne
    match k' with
    | [] => exact absurd rfl hne
    | c' :: k₂' =>
      have hc : c' ≠ '\x7d' := hk' c' (List.mem_cons_self c' k₂')
      have hb : ('\x7d' == c') = false := beq_eq_false_iff_ne.mpr fun hx => hc hx.symm
      rw [List.nil_append, List.cons_append, isPrefixOf_cons_cons, hb, Bool.false_and]
  | cons c k₂ ih =>
    intro k' rest hk hk' hne
    match k' with
    | [] =>
      have hc : c ≠ '\x7d' := hk c (List.mem_cons_self c k₂)
      have hb : (c == '\x7d') = false := beq_eq_false_iff_ne.mpr hc
      rw [List.cons_append, List.nil_append, isPrefixOf_cons_cons, hb, Bool.false_and]
    | c' :: k₂' =>
      rw [List.cons_append, List.cons_append, isPrefixOf_cons_cons]
      by_cases hcc : c = c'
      · subst hcc
        have hne₂ : k₂ ≠ k₂' := fun hx => hne (by rw [hx])
        rw [ih k₂' rest (fun x hx => hk x (List.mem_cons_of_mem _ hx))
            (fun x hx => hk' x (List.mem_cons_of_mem _ hx)) hne₂, Bool.and_false]
      · have hb : (c == c') = false := beq_eq_false_iff_ne.mpr hcc
        rw [hb, Bool.false_and]

theorem replaceAllPlain_token_skip (k k' : List Char) (val rest : List Char)
    (hk : braceFree k) (hk' : braceFree k') (hne : k ≠ k') :
    replaceAllPlain (token k) val (token k' ++ rest)
      = token k' ++ replaceAllPlain (token k) val rest := by
  have hexp : token k' ++ rest
      = '\x7b' :: '\x7b' :: (k' ++ '\x7d' :: '\x7d' :: rest) := by
    simp [token]
  have h₁ : (token k).isPrefixOf
      ('\x7b' :: '\x7b' :: (k' ++ '\x7d' :: '\x7d' :: rest)) = false := by
    show ('\x7b' :: '\x7b' :: (k ++ ['\x7d', '\x7d'])).isPrefixOf _ = false
    rw [isPrefixOf_cons_cons, isPrefixOf_cons_cons,
      key_mismatch k k' rest (fun c hc => (hk c hc).2) (fun c hc => (hk' c hc).2) hne]
    simp
  have h₂ : (token k).isPrefixOf ('\x7b' :: (k' ++ '\x7d' :: '\x7d' :: rest)) = false := by
    show ('\x7b' :: '\x7b' :: (k ++ ['\x7d', '\x7d'])).isPrefixOf _ = false
    match k' with
    | [] =>
      have hb : ('\x7b' == '\x7d') = false := by decide
      rw [List.nil_append, isPrefixOf_cons_cons, isPrefixOf_cons_cons, hb,
        Bool.false_and, Bool.and_false]
    | c' :: k₂' =>
      have hc : c' ≠ '\x7b' := (hk' c' (List.mem_cons_self c' k₂')).1
      have hb : ('\x7b' == c') = false := beq_eq_false_iff_ne.mpr fun hx => hc hx.symm
      rw [List.cons_append, isPrefixOf_cons_cons, isPrefixOf_cons_cons, hb,
        Bool.false_and, Bool.and_false]
  have hskip : ∀ c ∈ k' ++ ['\x7d', '\x7d'], c ≠ '\x7b' := by
    intro c hc
    rcases List.mem_append.mp hc with hx | hx
    · exact (hk' c hx).1
    · simp at hx
      rcases hx with rfl | rfl <;> decide
  have hre : k' ++ '\x7d' :: '\x7d' :: rest = (k' ++ ['\x7d', '\x7d']) ++ rest := by
    simp
  rw [hexp, replaceAllPlain_cons_neg _ _ _ _ h₁, replaceAllPlain_cons_neg _ _ _ _ h₂, hre]
  rw [show token k = '\x7b' :: ('\x7b' :: (k ++ ['\x7d', '\x7d'])) from rfl,
    replaceAllPlain_skip '\x7b' ('\x7b' :: (k ++ ['\x7d', '\x7d'])) val
      (k' ++ ['\x7d', '\x7d']) rest hskip]
  simp [token]

/-! ### From sequential replacement to simultaneous substitution -/

theorem flattenSegs_cons (sg : Seg) (segs : List Seg) :
    flattenSegs (sg :: segs) = sg.chars ++ flattenSegs segs := by
  simp [flattenSegs]

theorem renderSim_cons (vars : List (String × JsVal)) (sg : Seg) (segs : List Seg) :
    renderSim vars (sg :: segs) = substSeg vars sg ++ renderSim vars segs := by
  simp [renderSim]

theorem substOne_txt (k : String) (val s : List Char) (segs : List Seg) :
    substOne k val (Seg.txt s :: segs) = Seg.txt s :: substOne k val segs := rfl

theorem substOne_hole_eq (k : String) (val : List Char) (segs : List Seg) :
    substOne k val (Seg.hole k :: segs) = Seg.txt val :: substOne k val segs := by
  simp [substOne]

theorem substOne_hole_ne (k k' : String) (val : List Char) (segs : List Seg)
    (h : k' ≠ k) :
    substOne k val (Seg.hole k' :: segs) = Seg.hole k' :: substOne k val segs := by
  simp [substOne, h]

theorem replaceAllPlain_flatten (k : String) (val : List Char) (segs : List Seg)
    (hg : ∀ sg ∈ segs, sg.Good) (hk : plainKey k) :
    replaceAllPlain (token k.toList) val (flattenSegs segs)
      = flattenSegs (substOne k val segs) := by
  induction segs with
  | nil => rfl
  | cons sg segs ih =>
    have hgs : ∀ x ∈ segs, Seg.Good x := fun x hx => hg x (List.mem_cons_of_mem _ hx)
    have hgseg : sg.Good := hg sg (List.mem_cons_self _ _)
    match sg with
    | Seg.txt s =>
      have hns : ∀ c ∈ s, c ≠ '\x7b' := fun c hc => (hgseg c hc).1
      rw [flattenSegs_cons]
      show replaceAllPlain ('\x7b' :: ('\x7b' :: (k.toList ++ ['\x7d', '\x7d']))) val
          (s ++ flattenSegs segs) = _
      rw [replaceAllPlain_skip '\x7b' _ val s _ hns]
      show s ++ replaceAllPlain (token k.toList) val (flattenSegs segs) = _
      rw [ih hgs, substOne_txt, flattenSegs_cons]
      rfl
    | Seg.hole k' =>
      by_cases hkk : k' = k
      · subst hkk
        rw [flattenSegs_cons]
        show replaceAllPlain ('\x7b' :: ('\x7b' :: (k'.toList ++ ['\x7d', '\x7d']))) val
            (('\x7b' :: ('\x7b' :: (k'.toList ++ ['\x7d', '\x7d']))) ++ flattenSegs segs) = _
        rw [replaceAllPlain_head_match]
        show val ++ replaceAllPlain (token k'.toList) val (flattenSegs segs) = _
        rw [ih hgs, substOne_hole_eq, flattenSegs_cons]
        rfl
      · rw [flattenSegs_cons]
        show replaceAllPlain (token k.toList) val (token k'.toList ++ flattenSegs segs) = _
        rw [replaceAllPlain_token_skip k.toList k'.toList val _ (plainKey_braceFree k hk)
            (plainKey_braceFree k' hgseg) (fun hx => hkk (string_toList_inj hx).symm),
          ih hgs, substOne_hole_ne k k' val segs hkk, flattenSegs_cons]
        rfl

theorem substOne_good (k : String) (val : List Char) (hv : braceFree val) :
    ∀ (segs : List Seg), (∀ sg ∈ segs, sg.Good) →
      ∀ sg ∈ substOne k val segs, sg.Good := by
  intro segs
  induction segs with
  | nil => intro _ sg hsg; simp [substOne] at hsg
  | cons s₀ segs ih =>
    intro hg sg hsg
    have hgs : ∀ x ∈ segs, Seg.Good x := fun x hx => hg x (List.mem_cons_of_mem _ hx)
    match s₀ with
    | Seg.txt s =>
      rw [substOne_txt] at hsg
      rcases List.mem_cons.mp hsg with rfl | hx
      · exact hg _ (List.mem_cons_self _ _)
      · exact ih hgs sg hx
    | Seg.hole k' =>
      by_cases hkk : k' = k
      · subst hkk
        rw [substOne_hole_eq] at hsg
        rcases List.mem_cons.mp hsg with rfl | hx
        · exact hv
        · exact ih hgs sg hx
      · rw [substOne_hole_ne _ _ _ _ hkk] at hsg
        rcases List.mem_cons.mp hsg with rfl | hx
        · exact hg _ (List.mem_cons_self _ _)
        · exact ih hgs sg hx

theorem renderSim_substOne (k : String) (v : JsVal) (vars : List (String × JsVal))
    (segs : List Seg) :
    renderSim vars (substOne k (coerceVal v) segs) = renderSim ((k, v) :: vars) segs := by
  induction segs with
  | nil => rfl
  | cons sg segs ih =>
    match sg with
    | Seg.txt s =>
      rw [substOne_txt, renderSim_cons, renderSim_cons, ih]
      rfl
    | Seg.hole k' =>
      by_cases hkk : k' = k
      · subst hkk
        rw [substOne_hole_eq, renderSim_cons, renderSim_cons, ih]
        congr 1
        simp [substSeg, lookupVar]
      · rw [substOne_hole_ne _ _ _ _ hkk, renderSim_cons, renderSim_cons, ih]
        congr 1
        simp [substSeg, lookupVar, hkk]

theorem renderChars_eq_renderSim :
    ∀ (vars : List (String × JsVal)) (segs : List Seg),
      (∀ sg ∈ segs, sg.Good) →
      (∀ kv ∈ vars, plainKey kv.fst ∧ cleanVal kv.snd) →
      renderChars vars (flattenSegs segs) = renderSim vars segs := by
  intro vars
  induction vars with
  | nil =>
    intro segs _ _
    have hmap : segs.map (substSeg []) = segs.map Seg.chars := by
      apply List.map_congr_left
      intro sg _
      cases sg <;> rfl
    show (segs.map Seg.chars).flatten = (segs.map (substSeg [])).flatten
    rw [hmap]
  | cons kv vars ih =>
    intro segs hg hv
    have hkv := hv kv (List.mem_cons_self _ _)
    have hvs : ∀ x ∈ vars, plainKey x.fst ∧ cleanVal x.snd :=
      fun x hx => hv x (List.mem_cons_of_mem _ hx)
    have hfold : renderChars (kv :: vars) (flattenSegs segs)
        = renderChars vars
            (replaceAll (token kv.fst.toList) (coerceVal kv.snd) (flattenSegs segs)) := rfl
    rw [hfold,
      replaceAll_eq_plain (token kv.fst.toList) (coerceVal kv.snd) (flattenSegs segs)
        (cleanVal_dollarFree kv.snd hkv.2),
      replaceAllPlain_flatten kv.fst (coerceVal kv.snd) segs hg hkv.1,
      ih (substOne kv.fst (coerceVal kv.snd) segs)
        (substOne_good kv.fst (coerceVal kv.snd) (cleanVal_braceFree kv.snd hkv.2) segs hg)
        hvs, renderSim_substOne kv.fst kv.snd vars segs]

/-! ### Lookup and permutation lemmas for the variable mapping -/

theorem lookupVar_eq_none (k : String) :
    ∀ (l : List (String × JsVal)), lookupVar k l = none ↔ k ∉ l.map Prod.fst := by
  intro l
  induction l with
  | nil => simp [lookupVar]
  | cons kv rest ih =>
    by_cases hk : k = kv.fst
    · simp [lookupVar, hk]
    · simp only [lookupVar, if_neg hk, List.map_cons, List.mem_cons, ih]
      constructor
      · rintro hn (h | h)
        · exact hk h
        · exact hn h
      · intro hn h
        exact hn (Or.inr h)

theorem lookupVar_some_mem (k : String) (v : JsVal) :
    ∀ (l : List (String × JsVal)), lookupVar k l = some v → (k, v) ∈ l := by
  intro l
  induction l with
  | nil => intro h; simp [lookupVar] at h
  | cons kv rest ih =>
    intro h
    by_cases hk : k = kv.fst
    · rw [lookupVar, if_pos hk] at h
      have hv : v = kv.snd := (Option.some_inj.mp h).symm
      refine List.mem_cons.mpr (Or.inl ?_)
      rw [hk, hv]
    · rw [lookupVar, if_neg hk] at h
      exact List.mem_cons_of_mem _ (ih h)

theorem mem_lookupVar (k : String) (v : JsVal) :
    ∀ (l : List (String × JsVal)), (l.map Prod.fst).Nodup → (k, v) ∈ l →
      lookupVar k l = some v := by
  intro l
  induction l with
  | nil => intro _ h; simp at h
  | cons kv rest ih =>
    intro nd h
    rw [List.map_cons] at nd
    rcases List.nodup_cons.mp nd with ⟨hnotin, ndrest⟩
    rcases List.mem_cons.mp h with heq | hmem
    · have hk : k = kv.fst := congrArg Prod.fst heq
      have hv : v = kv.snd := congrArg Prod.snd heq
      rw [lookupVar, if_pos hk, hv]
    · have hkmem : k ∈ rest.map Prod.fst := List.mem_map.mpr ⟨(k, v), hmem, rfl⟩
      have hk : k ≠ kv.fst := fun hkk => hnotin (hkk ▸ hkmem)
      rw [lookupVar, if_neg hk]
      exact ih ndrest hmem

theorem lookupVar_perm (l₁ l₂ : List (String × JsVal)) (hperm : l₁.Perm l₂)
    (nd : (l₁.map Prod.fst).Nodup) (k : String) :
    lookupVar k l₁ = lookupVar k l₂ := by
  have nd₂ : (l₂.map Prod.fst).Nodup := ((hperm.map Prod.fst).nodup_iff).mp nd
  cases hl : lookupVar k l₁ with
  | some v =>
    have hm : (k, v) ∈ l₂ := hperm.mem_iff.mp (lookupVar_some_mem k v l₁ hl)
    exact (mem_lookupVar k v l₂ nd₂ hm).symm
  | none =>
    have hn : k ∉ l₁.map Prod.fst := (lookupVar_eq_none k l₁).mp hl
    have hn₂ : k ∉ l₂.map Prod.fst := fun hm => hn ((hperm.map Prod.fst).mem_iff.mpr hm)
    exact ((lookupVar_eq_none k l₂).mpr hn₂).symm

theorem renderSim_perm (vars₁ vars₂ : List (String × JsVal))
    (h : ∀ k, lookupVar k vars₁ = lookupVar k vars₂) (segs : List Seg) :
    renderSim vars₁ segs = renderSim vars₂ segs := by
  have hmap : segs.map (substSeg vars₁) = segs.map (substSeg vars₂) := by
    apply List.map_congr_left
    intro sg _
    cases sg with
    | txt s => rfl
    | hole k => simp [substSeg, h k]
  show (segs.map (substSeg vars₁)).flatten = (segs.map (substSeg vars₂)).flatten
  rw [hmap]

/-! ### Lemmas about the email validator -/

theorem emailChar_ne_at (x : Char) (h : emailChar x = true) : (x != '@') = true := by
  unfold emailChar at h
  cases hx : (x != '@')
  · rw [hx, Bool.and_false] at h
    exact absurd h (by simp)
  · rfl

theorem takeWhile_append_stop (p : Char → Bool) :
    ∀ (a : List Char) (x : Char) (t : List Char),
      (∀ c ∈ a, p c = true) → p x = false → (a ++ x :: t).takeWhile p = a := by
  intro a
  induction a with
  | nil => intro x t _ hx; simp [List.takeWhile_cons, hx]
  | cons c a ih =>
    intro x t ha hx
    have hc : p c = true := ha c (List.mem_cons_self _ _)
    simp [List.takeWhile_cons, hc,
      ih x t (fun y hy => ha y (List.mem_cons_of_mem _ hy)) hx]

theorem dropWhile_append_stop (p : Char → Bool) :
    ∀ (a : List Char) (x : Char) (t : List Char),
      (∀ c ∈ a, p c = true) → p x = false → (a ++ x :: t).dropWhile p = x :: t := by
  intro a
  induction a with
  | nil => intro x t _ hx; simp [List.dropWhile_cons, hx]
  | cons c a ih =>
    intro x t ha hx
    have hc : p c = true := ha c (List.mem_cons_self _ _)
    simp [List.dropWhile_cons, hc,
      ih x t (fun y hy => ha y (List.mem_cons_of_mem _ hy)) hx]

theorem dropWhile_all (p : Char → Bool) :
    ∀ (l : List Char), (∀ c ∈ l, p c = true) → l.dropWhile p = [] := by
  intro l
  induction l with
  | nil => intro _; rfl
  | cons c rest ih =>
    intro h
    have hc : p c = true := h c (List.mem_cons_self _ _)
    simp [List.dropWhile_cons, hc, ih (fun y hy => h y (List.mem_cons_of_mem _ hy))]

theorem dropWhile_head_false (p : Char → Bool) :
    ∀ (l : List Char) (x : Char) (xs : List Char),
      l.dropWhile p = x :: xs → p x = false := by
  intro l
  induction l with
  | nil => intro x xs h; simp at h
  | cons c rest ih =>
    intro x xs h
    cases hp : p c
    · rw [List.dropWhile_cons, hp] at h
      simp at h
      rw [← h.1]
      exact hp
    · rw [List.dropWhile_cons, hp] at h
      simp at h
      exact ih x xs h

theorem hasDotNotLast_append (u v : List Char) (hv : v ≠ []) :
    hasDotNotLast (u ++ '.' :: v) = true := by
  induction u with
  | nil =>
    have hv' : v.isEmpty = false := by
      cases v
      · exact absurd rfl hv
      · rfl
    simp [hasDotNotLast, hv']
  | cons c u ih => simp [hasDotNotLast, ih]

theorem hasDotNotLast_no_dot (t : List Char) (h : '.' ∉ t) :
    hasDotNotLast t = false := by
  induction t with
  | nil => rfl
  | cons c rest ih =>
    have hc : c ≠ '.' := fun he => h (he ▸ List.mem_cons_self _ _)
    have hb : (c == '.') = false := beq_eq_false_iff_ne.mpr hc
    simp [hasDotNotLast, hb, ih (fun hm => h (List.mem_cons_of_mem _ hm))]

theorem interiorDot_no_dot (ds : List Char) (h : '.' ∉ ds) :
    interiorDot ds = false := by
  cases ds with
  | nil => rfl
  | cons d t =>
    show hasDotNotLast t = false
    exact hasDotNotLast_no_dot t (fun hm => h (List.mem_cons_of_mem _ hm))

theorem no_dot_after_at_of_no_dot (cs : List Char) (h : '.' ∉ cs) :
    ∀ pre post : List Char, cs = pre ++ '@' :: post → '.' ∉ post :=
  fun _ _ heq hmem =>
    h (heq ▸ List.mem_append.mpr (Or.inr (List.mem_cons_of_mem _ hmem)))

/-! ### Claim theorems -/

/-- C6 counterexample: `"constructor"` is none of the three provider names,
yet `config["constructor"]` resolves through the prototype chain to the
truthy `Object.prototype.constructor`, so `config[service] || config.gmail`
hands that inherited value — not the gmail profile — to the transport
library. -/
theorem claim_c6_counterexample :
    ("constructor" : String) ∉ ["gmail", "outlook", "smtp"]
      ∧ createTransporter (some "constructor")
          = TransportSelection.inherited "constructor"
      ∧ TransportSelection.inherited "constructor"
          ≠ TransportSelection.profile Provider.gmail := by
  decide

/-- C6 (amended): for every service selector string that is neither one of
the three provider names (gmail, outlook, smtp) nor the name of a property
inherited from `Object.prototype`, and also when the selector is absent, the
transport factory builds the client from the gmail profile. -/
theorem claim_c6_transport_fallback (s : String)
    (h1 : s ≠ "gmail") (h2 : s ≠ "outlook") (h3 : s ≠ "smtp")
    (hp : s ∉ protoProps) :
    createTransporter (some s) = TransportSelection.profile Provider.gmail
      ∧ createTransporter none = TransportSelection.profile Provider.gmail := by
  constructor
  · simp [createTransporter, providerTable, h1, h2, h3, hp]
  · rfl

/-- Witness for C6 at the spec's own example selector `"unknown-service"`. -/
theorem claim_c6_witness :
    createTransporter (some "unknown-service")
        = TransportSelection.profile Provider.gmail
      ∧ createTransporter none = TransportSelection.profile Provider.gmail :=
  claim_c6_transport_fallback "unknown-service" (by decide) (by decide) (by decide)
    (by decide)

/-- C7: the email validator returns true for every string matching
`^[^\s@]+@[^\s@]+\.[^\s@]+$` — that is, every string of the form
`a ++ '@' :: (b ++ '.' :: c)` with `a`, `b`, `c` nonempty blocks of
non-whitespace, non-`@` characters — and returns false for every string
lacking an `@`, and for every string in which no `'.'` occurs after an `'@'`.
Being a Lean function of the string alone, the embedded validator is
side-effect-free by construction. -/
theorem claim_c7_validator (cs : List Char) :
    ((∃ a b c : List Char,
        cs = a ++ '@' :: (b ++ '.' :: c)
          ∧ a ≠ [] ∧ b ≠ [] ∧ c ≠ []
          ∧ (∀ x ∈ a, emailChar x = true)
          ∧ (∀ x ∈ b, emailChar x = true)
          ∧ (∀ x ∈ c, emailChar x = true)) →
      validateEmail cs = true)
    ∧ ('@' ∉ cs → validateEmail cs = false)
    ∧ ((∀ pre post : List Char, cs = pre ++ '@' :: post → '.' ∉ post) →
      validateEmail cs = false) := by
  refine ⟨?_, ?_, ?_⟩
  · rintro ⟨a, b, c, heq, ha, hb, hc, hae, hbe, hce⟩
    subst heq
    have hpa : ∀ x ∈ a, (x != '@') = true := fun x hx => emailChar_ne_at x (hae x hx)
    have hdrop : (a ++ '@' :: (b ++ '.' :: c)).dropWhile (fun ch => ch != '@')
        = '@' :: (b ++ '.' :: c) :=
      dropWhile_append_stop _ a '@' _ hpa (by decide)
    have htake : (a ++ '@' :: (b ++ '.' :: c)).takeWhile (fun ch => ch != '@') = a :=
      takeWhile_append_stop _ a '@' _ hpa (by decide)
    have h1 : a.isEmpty = false := by
      cases a
      · exact absurd rfl ha
      · rfl
    have h2 : a.all emailChar = true := List.all_eq_true.mpr hae
    have h3 : (b ++ '.' :: c).all emailChar = true := by
      apply List.all_eq_true.mpr
      intro x hx
      rcases List.mem_append.mp hx with hxx | hxx
      · exact hbe x hxx
      · rcases List.mem_cons.mp hxx with rfl | hxx
        · decide
        · exact hce x hxx
    have h4 : interiorDot (b ++ '.' :: c) = true := by
      match b, hb with
      | b₀ :: b', _ =>
        rw [List.cons_append]
        show hasDotNotLast (b' ++ '.' :: c) = true
        exact hasDotNotLast_append b' c hc
    simp [validateEmail, hdrop, htake, h1, h2, h3, h4]
  · intro hno
    have hall : ∀ ch ∈ cs, (ch != '@') = true := fun ch hcm =>
      bne_iff_ne.mpr (fun he => hno (he ▸ hcm))
    have hdrop : cs.dropWhile (fun ch => ch != '@') = [] := dropWhile_all _ cs hall
    simp [validateEmail, hdrop]
  · intro hno
    cases hdrop : cs.dropWhile (fun ch => ch != '@') with
    | nil => simp [validateEmail, hdrop]
    | cons c₀ domain =>
      have hp : (c₀ != '@') = false := dropWhile_head_false _ cs c₀ domain hdrop
      have hc₀ : c₀ = '@' := by
        by_contra hne
        rw [bne_iff_ne.mpr hne] at hp
        exact absurd hp (by simp)
      subst hc₀
      have hsplit := (List.takeWhile_append_dropWhile (fun ch => ch != '@') cs).symm
      rw [hdrop] at hsplit
      have hnodot : '.' ∉ domain := hno _ _ hsplit
      have hint : interiorDot domain = false := interiorDot_no_dot domain hnodot
      simp [validateEmail, hdrop, hint]

/-- Witness for C7 at the spec's three examples: `"a@b.com"` matches the
pattern, `"not-an-email"` has no `@`, and `"a@b"` has no dot after the `@`. -/
theorem claim_c7_witness :
    validateEmail "a@b.com".toList = true
      ∧ validateEmail "not-an-email".toList = false
      ∧ validateEmail "a@b".toList = false := by
  refine ⟨(claim_c7_validator _).1 ?_, (claim_c7_validator _).2.1 ?_,
    (claim_c7_validator _).2.2 ?_⟩
  · exact ⟨"a".toList, "b".toList, "com".toList, by decide⟩
  · decide
  · exact no_dot_after_at_of_no_dot _ (by decide)

/-- C8: every single-send request missing both `text` and `html` (or missing
`to` or `subject`) yields the 400 missing-fields response, with no transporter
constructed and zero sends attempted. -/
theorem claim_c8_single_missing_fields (req : SingleRequest) (outcome : SendOutcome)
    (h : (!truthy req.toAddr || !truthy req.subject
        || (!truthy req.text && !truthy req.html)) = true) :
    sendEmailHandler req outcome = (SingleResponse.errMissingFields, ⟨false, 0⟩)
      ∧ (sendEmailHandler req outcome).fst.status = 400 := by
  refine ⟨?_, ?_⟩ <;> simp [sendEmailHandler, h, SingleResponse.status]

/-- Witness for C8: a request with `to` and `subject` present but neither
`text` nor `html`. -/
theorem claim_c8_witness :
    sendEmailHandler ⟨some "user@example.com", some "Hello", none, none, none, none⟩
        (SendOutcome.ok "m1")
      = (SingleResponse.errMissingFields, ⟨false, 0⟩)
      ∧ (sendEmailHandler ⟨some "user@example.com", some "Hello", none, none, none, none⟩
          (SendOutcome.ok "m1")).fst.status = 400 :=
  claim_c8_single_missing_fields _ _ (by decide)

/-- C10: the required-field presence checks treat the empty string as missing:
a single-send request with `text = ""` and no `html` is rejected as
missing-fields, and a bulk request that passes the recipients gate but has
`subject = ""` is rejected as missing-fields, in both cases with zero sends. -/
theorem claim_c10_empty_string_missing :
    (∀ (toA subj fromA svc : Option String) (outcome : SendOutcome),
      sendEmailHandler ⟨toA, subj, some "", none, fromA, svc⟩ outcome
        = (SingleResponse.errMissingFields, ⟨false, 0⟩))
    ∧ (∀ (recips : List String) (text html fromA svc : Option String)
        (sendFn : Nat → SendOutcome), recips ≠ [] →
      sendBulkEmailHandler ⟨some recips, some "", text, html, fromA, svc⟩ sendFn
        = (BulkResponse.errMissingFields, ⟨false, 0⟩)) := by
  constructor
  · intro toA subj fromA svc outcome
    simp [sendEmailHandler, truthy]
  · intro recips text html fromA svc sendFn hne
    cases recips with
    | nil => exact absurd rfl hne
    | cons r rs => simp [sendBulkEmailHandler, truthy]

/-- Witness for C10 at concrete requests whose empty-string fields are
present in the body yet rejected as missing. -/
theorem claim_c10_witness :
    sendEmailHandler ⟨some "a@b.com", some "Hi", some "", none, none, none⟩
        (SendOutcome.ok "m1")
      = (SingleResponse.errMissingFields, ⟨false, 0⟩)
    ∧ sendBulkEmailHandler ⟨some ["a@b.com"], some "", some "t", none, none, none⟩
        (fun _ => SendOutcome.ok "m1")
      = (BulkResponse.errMissingFields, ⟨false, 0⟩) :=
  ⟨claim_c10_empty_string_missing.1 _ _ _ _ _,
   claim_c10_empty_string_missing.2 _ _ _ _ _ _ (by decide)⟩

/-- C1: in the bulk handler, once validation passes, a failure of the 2nd
provider call is recorded in `errors` without aborting the 1st and 3rd sends,
and the response is the 200 `completed` response with 2 successes and 1
failure. -/
theorem claim_c1_bulk_partial_failure (r₁ r₂ r₃ : String)
    (subj text html fromA svc : Option String) (sendFn : Nat → SendOutcome)
    (m₀ m₂ e : String)
    (hv₁ : validateEmailStr r₁ = true) (hv₂ : validateEmailStr r₂ = true)
    (hv₃ : validateEmailStr r₃ = true)
    (hsubj : truthy subj = true) (hbody : (!truthy text && !truthy html) = false)
    (h₀ : sendFn 0 = SendOutcome.ok m₀) (h₁ : sendFn 1 = SendOutcome.err e)
    (h₂ : sendFn 2 = SendOutcome.ok m₂) :
    sendBulkEmailHandler ⟨some [r₁, r₂, r₃], subj, text, html, fromA, svc⟩ sendFn
      = (BulkResponse.completed [⟨r₁, m₀⟩, ⟨r₃, m₂⟩] [⟨r₂, e⟩], ⟨true, 3⟩)
      ∧ (sendBulkEmailHandler ⟨some [r₁, r₂, r₃], subj, text, html, fromA, svc⟩
          sendFn).fst.status = 200 := by
  have hmain : sendBulkEmailHandler ⟨some [r₁, r₂, r₃], subj, text, html, fromA, svc⟩ sendFn
      = (BulkResponse.completed [⟨r₁, m₀⟩, ⟨r₃, m₂⟩] [⟨r₂, e⟩], ⟨true, 3⟩) := by
    simp [sendBulkEmailHandler, hsubj, hbody, hv₁, hv₂, hv₃, bulkLoop, h₀, h₁, h₂]
  refine ⟨hmain, ?_⟩
  rw [hmain]
  rfl

/-- Witness for C1: three valid recipients, provider call 1 (the 2nd call)
rejects, calls 0 and 2 resolve. -/
theorem claim_c1_witness :
    sendBulkEmailHandler
        ⟨some ["a@b.com", "c@d.com", "e@f.com"], some "S", some "T", none, none, none⟩
        (fun i => if i = 1 then SendOutcome.err "boom"
          else if i = 0 then SendOutcome.ok "m0" else SendOutcome.ok "m2")
      = (BulkResponse.completed [⟨"a@b.com", "m0"⟩, ⟨"e@f.com", "m2"⟩]
          [⟨"c@d.com", "boom"⟩], ⟨true, 3⟩)
      ∧ (sendBulkEmailHandler
          ⟨some ["a@b.com", "c@d.com", "e@f.com"], some "S", some "T", none, none, none⟩
          (fun i => if i = 1 then SendOutcome.err "boom"
            else if i = 0 then SendOutcome.ok "m0" else SendOutcome.ok "m2")).fst.status
        = 200 :=
  claim_c1_bulk_partial_failure "a@b.com" "c@d.com" "e@f.com" (some "S") (some "T")
    none none none _ "m0" "m2" "boom" (by decide) (by decide) (by decide) (by decide)
    (by decide) (by decide) (by decide) (by decide)

/-- C3 counterexample: a 51-entry recipients list containing the invalid
address `"bad"` (subject and body present) is answered with the
invalid-address 400 body, not the size-limit 400 body — so the per-address
validity gate runs before the 50-entry limit, contrary to the claimed order. -/
theorem claim_c3_counterexample :
    ("bad" :: List.replicate 50 "a@b.com").length = 51
      ∧ (sendBulkEmailHandler
          ⟨some ("bad" :: List.replicate 50 "a@b.com"), some "s", some "t",
            none, none, none⟩
          (fun _ => SendOutcome.ok "m")).fst
        = BulkResponse.errInvalidEmails ["bad"]
      ∧ BulkResponse.errInvalidEmails ["bad"] ≠ BulkResponse.errTooManyRecipients := by
  refine ⟨by decide, ?_, by decide⟩
  decide

/-- C3 (amended): the gates run in the order: non-empty recipients, missing
subject/body, per-address validity, size limit; hence a request with subject
and body present whose recipients list exceeds 50 entries and contains an
invalid address gets the 400 invalid-address response listing the invalid
addresses, not the size-limit response, and no send is attempted. -/
theorem claim_c3_amended_order (recips : List String)
    (subj text html fromA svc : Option String) (sendFn : Nat → SendOutcome)
    (hsubj : truthy subj = true) (hbody : (!truthy text && !truthy html) = false)
    (hlen : recips.length > 50)
    (hbad : ∃ r ∈ recips, validateEmailStr r = false) :
    sendBulkEmailHandler ⟨some recips, subj, text, html, fromA, svc⟩ sendFn
      = (BulkResponse.errInvalidEmails (recips.filter (fun e => !validateEmailStr e)),
          ⟨false, 0⟩) := by
  obtain ⟨r, hrm, hrv⟩ := hbad
  have hne : recips.isEmpty = false := by
    cases recips
    · simp at hrm
    · rfl
  have hmem : r ∈ recips.filter (fun e => !validateEmailStr e) :=
    List.mem_filter.mpr ⟨hrm, by simp [hrv]⟩
  have hfe : (recips.filter (fun e => !validateEmailStr e)).isEmpty = false := by
    cases hh : recips.filter (fun e => !validateEmailStr e)
    · rw [hh] at hmem
      simp at hmem
    · rfl
  simp [sendBulkEmailHandler, hne, hsubj, hbody, hfe]

/-- Witness for C3 (amended) at the counterexample's request. -/
theorem claim_c3_witness :
    sendBulkEmailHandler
        ⟨some ("bad" :: List.replicate 50 "a@b.com"), some "s", some "t", none, none, none⟩
        (fun _ => SendOutcome.ok "m")
      = (BulkResponse.errInvalidEmails ["bad"], ⟨false, 0⟩) := by
  rw [claim_c3_amended_order ("bad" :: List.replicate 50 "a@b.com") (some "s") (some "t")
    none none none (fun _ => SendOutcome.ok "m") (by decide) (by decide) (by decide)
    ⟨"bad", List.mem_cons_self _ _, by decide⟩]
  decide

/-- C4: every bulk request whose recipients list has length 51 is answered
with some 400 response before the send loop: zero sends are attempted and no
transporter is constructed. -/
theorem claim_c4_bulk_51_rejected (req : BulkRequest) (sendFn : Nat → SendOutcome)
    (recips : List String) (hr : req.recipients = some recips)
    (hlen : recips.length = 51) :
    (sendBulkEmailHandler req sendFn).fst.status = 400
      ∧ (sendBulkEmailHandler req sendFn).snd = ⟨false, 0⟩ := by
  have hne : recips.isEmpty = false := by
    cases recips
    · simp at hlen
    · rfl
  simp only [sendBulkEmailHandler, hr]
  split_ifs with h1 h2 h3 h4
  · exact absurd h1 (by simp [hne])
  · exact ⟨rfl, rfl⟩
  · exact ⟨rfl, rfl⟩
  · exact ⟨rfl, rfl⟩
  · exact absurd (show recips.length > 50 by omega) h4

/-- Witness for C4: 51 syntactically valid recipients with subject and body
present still get a 400 (the size limit) and zero sends. -/
theorem claim_c4_witness :
    (sendBulkEmailHandler
        ⟨some (List.replicate 51 "a@b.com"), some "s", some "t", none, none, none⟩
        (fun _ => SendOutcome.ok "m")).fst.status = 400
      ∧ (sendBulkEmailHandler
          ⟨some (List.replicate 51 "a@b.com"), some "s", some "t", none, none, none⟩
          (fun _ => SendOutcome.ok "m")).snd = ⟨false, 0⟩ :=
  claim_c4_bulk_51_rejected _ _ (List.replicate 51 "a@b.com") rfl (by decide)

/-- C5 counterexample: the identifier `"constructor"` is not a registry key,
yet `templates["constructor"]` resolves through the prototype chain to a
truthy inherited value: the 400 template-not-found branch is skipped, and
with the default empty `variables` mapping the handler attempts a send (one
`sendMail` call) instead of rejecting — so the original claim fails on the
program. -/
theorem claim_c5_counterexample :
    ("constructor" : String) ∉ templateKeys
      ∧ sendTemplateEmailHandler
          ⟨some "a@b.com", some "constructor", [], none, none⟩ (SendOutcome.ok "m1")
        = (TemplateResponse.sent "m1" "constructor", ⟨true, 1⟩)
      ∧ (sendTemplateEmailHandler
          ⟨some "a@b.com", some "constructor", [], none, none⟩
          (SendOutcome.ok "m1")).snd.sendAttempts ≠ 0
      ∧ (sendTemplateEmailHandler
          ⟨some "a@b.com", some "constructor", [], none, none⟩
          (SendOutcome.ok "m1")).fst
        ≠ TemplateResponse.errTemplateNotFound templateKeys := by
  decide

/-- C5 (amended): a templated send whose template identifier is present but
matches none of the 4 registry keys (case-sensitively) and is not the name of
a property inherited from `Object.prototype` is answered 400 with the full
list of the 4 valid identifiers, and no transporter is constructed and no
send attempted. -/
theorem claim_c5_unknown_template (toA tname : String)
    (vars : List (String × JsVal)) (svc fromA : Option String) (outcome : SendOutcome)
    (hto : validateEmailStr toA = true) (htn : tname ≠ "")
    (hunknown : tname ∉ templateKeys) (hp : tname ∉ protoProps) :
    sendTemplateEmailHandler ⟨some toA, some tname, vars, svc, fromA⟩ outcome
      = (TemplateResponse.errTemplateNotFound templateKeys, ⟨false, 0⟩)
      ∧ (TemplateResponse.errTemplateNotFound templateKeys).status = 400
      ∧ templateKeys = ["welcome", "art_submission", "reset_password", "notification"] := by
  have hto' : toA ≠ "" := by
    intro he
    rw [he] at hto
    exact absurd hto (by decide)
  have h1 : tname ≠ "welcome" := fun h => hunknown (by rw [h]; decide)
  have h2 : tname ≠ "art_submission" := fun h => hunknown (by rw [h]; decide)
  have h3 : tname ≠ "reset_password" := fun h => hunknown (by rw [h]; decide)
  have h4 : tname ≠ "notification" := fun h => hunknown (by rw [h]; decide)
  have ht1 : truthy (some toA) = true := by
    show (!(toA == "")) = true
    rw [beq_eq_false_iff_ne.mpr hto']
    rfl
  have ht2 : truthy (some tname) = true := by
    show (!(tname == "")) = true
    rw [beq_eq_false_iff_ne.mpr htn]
    rfl
  have hreg : templates tname = none := by simp [templates, h1, h2, h3, h4]
  have hget : templatesGet tname = none := by simp [templatesGet, hreg, hp]
  refine ⟨?_, rfl, rfl⟩
  simp [sendTemplateEmailHandler, ht1, ht2, hto, hget]

/-- Witness for C5: the identifier `"Welcome"` (wrong case) is rejected with
the list of the 4 valid identifiers. -/
theorem claim_c5_witness :
    sendTemplateEmailHandler ⟨some "user@example.com", some "Welcome", [], none, none⟩
        (SendOutcome.ok "m1")
      = (TemplateResponse.errTemplateNotFound templateKeys, ⟨false, 0⟩)
      ∧ (TemplateResponse.errTemplateNotFound templateKeys).status = 400
      ∧ templateKeys = ["welcome", "art_submission", "reset_password", "notification"] :=
  claim_c5_unknown_template "user@example.com" "Welcome" [] none none (SendOutcome.ok "m1")
    (by decide) (by decide) (by decide) (by decide)

/-- C2 counterexample: with the registry keys `title` and `message` and the
mapping `{title: "{{message}}", message: "X"}` the rendered output carries
`"X"` where `{{title}}` stood — not title's value — because the later key's
replacement rewrites the just-inserted value; and the `$`-escaped value
`"$&"` is replaced by the matched token, not by the value text.  The claim
as frozen is therefore false of the program. -/
theorem claim_c2_counterexample :
    renderChars [("title", JsVal.str "\x7b\x7bmessage\x7d\x7d"), ("message", JsVal.str "X")]
        ("\x7b\x7btitle\x7d\x7d").toList
      = "X".toList
    ∧ "X".toList ≠ ("\x7b\x7bmessage\x7d\x7d").toList
    ∧ renderChars [("title", JsVal.str "$&")] ("\x7b\x7btitle\x7d\x7d").toList
        = ("\x7b\x7btitle\x7d\x7d").toList
    ∧ ("\x7b\x7btitle\x7d\x7d").toList ≠ "$&".toList := by
  decide

/-- C2 (amended): for every template whose braces occur only in well-formed
`\x7b\x7bkey\x7d\x7d` tokens with plain identifier keys, and every variable
mapping whose keys are plain identifiers and whose coerced values contain
neither braces nor `$`, the renderer is exactly simultaneous substitution on
both the subject and the html body: every hole whose key is bound in the
mapping is replaced — everywhere it occurs, case-sensitively and by exact
key match — by the value coerced with `variables[key] || ''` (so a falsy
value becomes the empty string), and every hole whose key is absent from the
mapping keeps its literal `\x7b\x7bkey\x7d\x7d` text. -/
theorem claim_c2_renderer (vars : List (String × JsVal)) (subjSegs htmlSegs : List Seg)
    (hgs : ∀ sg ∈ subjSegs, sg.Good) (hgh : ∀ sg ∈ htmlSegs, sg.Good)
    (hv : ∀ kv ∈ vars, plainKey kv.fst ∧ cleanVal kv.snd) :
    renderChars vars (flattenSegs subjSegs) = renderSim vars subjSegs
      ∧ renderChars vars (flattenSegs htmlSegs) = renderSim vars htmlSegs :=
  ⟨renderChars_eq_renderSim vars subjSegs hgs hv,
   renderChars_eq_renderSim vars htmlSegs hgh hv⟩

/-- Witness for C2 on the real `notification` template: the segmentations
flatten to the registry's subject and body strings, the theorem applies, and
evaluating shows `title` substituted everywhere, the falsy `message` (number
0) replaced by the empty string, and the unbound `senderName` hole retained
verbatim. -/
theorem claim_c2_witness :
    flattenSegs notificationSubjectSegs = notificationTemplate.subject.toList
      ∧ flattenSegs notificationHtmlSegs = notificationTemplate.html.toList
      ∧ renderChars c2Vars (flattenSegs notificationSubjectSegs)
          = renderSim c2Vars notificationSubjectSegs
      ∧ renderChars c2Vars (flattenSegs notificationHtmlSegs)
          = renderSim c2Vars notificationHtmlSegs
      ∧ renderSim c2Vars notificationSubjectSegs = "Hi".toList
      ∧ renderSim c2Vars notificationHtmlSegs
        = ("\n          <h1>T</h1>\n          <p></p>\n          <p>Best regards,<br>\x7b\x7bsenderName\x7d\x7d</p>\n        ").toList := by
  have h := claim_c2_renderer c2Vars notificationSubjectSegs notificationHtmlSegs
    (by decide) (by decide) (by decide)
  exact ⟨by decide, by decide, h.1, h.2, by decide, by decide⟩

/-- C9 counterexample: the keys `"a"` and `"b"` satisfy the claim's
disjointness condition (neither key is a substring of the other's token) and
the two mappings are permutations of each other, yet the two processing
orders render differently — first because the value bound to `"a"` contains
the token of `"b"` (brace mechanism), and second, even with brace-free
values, because a value made of `$` followed by a backquote copies the text
before the match (ECMA-262 `GetSubstitution`), which differs between orders.
So rendering is not order-independent under the claimed side condition
alone. -/
theorem claim_c9_counterexample :
    isSubstringOf "a".toList (token "b".toList) = false
      ∧ isSubstringOf "b".toList (token "a".toList) = false
      ∧ [("a", JsVal.str "\x7b\x7bb\x7d\x7d"), ("b", JsVal.str "X")].Perm
          [("b", JsVal.str "X"), ("a", JsVal.str "\x7b\x7bb\x7d\x7d")]
      ∧ renderChars [("a", JsVal.str "\x7b\x7bb\x7d\x7d"), ("b", JsVal.str "X")]
          ("\x7b\x7ba\x7d\x7d").toList
        ≠ renderChars [("b", JsVal.str "X"), ("a", JsVal.str "\x7b\x7bb\x7d\x7d")]
          ("\x7b\x7ba\x7d\x7d").toList
      ∧ renderChars [("a", JsVal.str "$\x60"), ("b", JsVal.str "$\x60")]
          ("\x7b\x7ba\x7d\x7d\x7b\x7bb\x7d\x7d").toList
        ≠ renderChars [("b", JsVal.str "$\x60"), ("a", JsVal.str "$\x60")]
          ("\x7b\x7ba\x7d\x7d\x7b\x7bb\x7d\x7d").toList := by
  decide

/-- C9 (amended): rendering is order-independent over the variable mapping
when, beyond distinct keys, the mapping's keys are plain identifiers, its
coerced values contain no braces (so a replacement can neither create nor
destroy another key's token) and no `$` (so replacement text is inserted
literally rather than copying match context), and the template's braces
occur only in well-formed tokens: for any two orderings of such a mapping
the rendered string is the same. -/
theorem claim_c9_amended_order_independent (vars₁ vars₂ : List (String × JsVal))
    (segs : List Seg) (hperm : vars₁.Perm vars₂)
    (nd : (vars₁.map Prod.fst).Nodup)
    (hg : ∀ sg ∈ segs, sg.Good)
    (hv : ∀ kv ∈ vars₁, plainKey kv.fst ∧ cleanVal kv.snd) :
    renderChars vars₁ (flattenSegs segs) = renderChars vars₂ (flattenSegs segs) := by
  have hv₂ : ∀ kv ∈ vars₂, plainKey kv.fst ∧ cleanVal kv.snd :=
    fun kv hkv => hv kv (hperm.mem_iff.mpr hkv)
  rw [renderChars_eq_renderSim vars₁ segs hg hv,
    renderChars_eq_renderSim vars₂ segs hg hv₂]
  exact renderSim_perm vars₁ vars₂ (lookupVar_perm vars₁ vars₂ hperm nd) segs

/-- Witness for C9 (amended): two orderings of a two-key mapping with plain
keys and brace-free values render the same template identically. -/
theorem claim_c9_witness :
    renderChars [("name", JsVal.str "Ann"), ("city", JsVal.str "Oslo")]
        (flattenSegs [Seg.txt "Hi ".toList, Seg.hole "name", Seg.txt " from ".toList,
          Seg.hole "city"])
      = renderChars [("city", JsVal.str "Oslo"), ("name", JsVal.str "Ann")]
        (flattenSegs [Seg.txt "Hi ".toList, Seg.hole "name", Seg.txt " from ".toList,
          Seg.hole "city"]) :=
  claim_c9_amended_order_independent _ _ _ (by decide) (by decide) (by decide) (by decide)

end EmailApi
